import Mathlib

/-!
Verification of the turtwig DICOM scan-reconstruction pipeline
(`src/turtwig/data/dicom.py` and its helpers in `src/turtwig/futils` and
`src/turtwig/validation`).

The Python source is shallowly embedded: DICOM decimal values become `ℚ`,
numpy arrays become nested lists, Python `None` becomes `Option.none`, and
an exception caught by a `logger.catch()` boundary is rendered as the
`none` result that the decorated function returns to its caller.

The file-system helpers `list_files` and `generate_full_paths` live in
`turtwig/futils/path.py`, which is not part of the sources; they are
modelled from the spec (see `FSFile` and `load_all_patient_scans`).
-/

namespace Turtwig

/-- 3D numeric or boolean array of shape (H, W, D), indexed as a[h][w][d].
Embeds the rectangular numpy arrays produced by the pipeline; the model
assumes the rectangular shapes numpy enforces at runtime. -/
abbrev Arr3 (α : Type) : Type := List (List (List α))

/-- 2D array of shape (H, W), one decoded pixel plane. -/
abbrev Arr2 (α : Type) : Type := List (List α)

/-- numpy `flip(array, axis=-1)` on a 3D array: reverse the depth axis. -/
def np_flip_last {α : Type} (a : Arr3 α) : Arr3 α :=
  a.map (fun plane => plane.map List.reverse)

/-- numpy `flip(array, axis=1)` on a 3D array: reverse the width axis. -/
def np_flip_axis1 {α : Type} (a : Arr3 α) : Arr3 α :=
  a.map List.reverse

/-- Embeds `_flip_array`: flip depth axis, then width axis (dicom.py lines 36-51). -/
def flip_array {α : Type} (a : Arr3 α) : Arr3 α :=
  np_flip_axis1 (np_flip_last a)

-- ===== Python string helpers used by `_standardise_roi_name` =====

/-- The ASCII whitespace characters stripped by Python `str.strip()`. -/
def py_isspace (c : Char) : Bool :=
  c = ' ' || c = '\t' || c = '\n' || c = '\x0d' || c = '\x0b' || c = '\x0c'

/-- Python `str.strip()`: drop leading and trailing whitespace. -/
def py_strip (s : String) : String :=
  String.mk (((s.toList.dropWhile py_isspace).reverse.dropWhile py_isspace).reverse)

/-- Python `str.lower()` (ASCII range, as in the organ names at issue). -/
def py_lower (s : String) : String :=
  String.mk (s.toList.map Char.toLower)

/-- Python `str.replace(" ", "_")`: each single space character becomes an
underscore (one-character needle, so this is a character map). -/
def py_replace_space_underscore (s : String) : String :=
  String.mk (s.toList.map (fun c => if c = ' ' then '_' else c))

/-- Embeds `_standardise_roi_name` (dicom.py lines 60-61):
`name.strip().lower().replace(" ", "_")`. -/
def standardise_roi_name (s : String) : String :=
  py_replace_space_underscore (py_lower (py_strip s))

/-- Replace every maximal run of whitespace by one underscore.
Used to state the spec's wording of name standardization. -/
def collapse_ws : List Char → List Char
  | [] => []
  | [c] => if py_isspace c then ['_'] else [c]
  | c :: c2 :: rest =>
    if py_isspace c && py_isspace c2 then collapse_ws (c2 :: rest)
    else (if py_isspace c then '_' else c) :: collapse_ws (c2 :: rest)

/-- The claim's reading of standardization: trim, lower-case, then replace
every internal whitespace run by a single underscore. -/
def spec_standardise_name (s : String) : String :=
  String.mk (collapse_ws ((py_lower (py_strip s)).toList))

/-- Character-by-character space substitution, stated independently of
`py_replace_space_underscore` for the amended claim. -/
def replace_each_space : List Char → List Char
  | [] => []
  | c :: rest => (if c = ' ' then '_' else c) :: replace_each_space rest

/-- Amended reading: trim, lower-case, then replace each space character
(not each whitespace run) by an underscore. -/
def amended_standardise_name (s : String) : String :=
  String.mk (replace_each_space ((py_lower (py_strip s)).toList))

-- ===== Theorems for C9 and C4 =====

/-- C9: the orientation-normalizing transform (flip depth, then flip width)
is its own inverse: applying it twice returns the original 3D array. -/
theorem flip_array_involutive {α : Type} (a : Arr3 α) :
    flip_array (flip_array a) = a := by
  unfold flip_array np_flip_axis1 np_flip_last
  rw [List.map_map, List.map_map, List.map_map]
  refine Eq.trans (List.map_congr_left ?_) (List.map_id a)
  intro plane _
  simp [Function.comp, List.map_reverse, List.reverse_reverse, List.map_map]

/-- C4 counterexample: on "a  b" (two internal spaces) the code produces
"a__b", while the claim's whitespace-run collapsing would produce "a_b". -/
theorem standardise_roi_name_counterexample :
    standardise_roi_name "a  b" = "a__b" ∧
    spec_standardise_name "a  b" = "a_b" ∧
    standardise_roi_name "a  b" ≠ spec_standardise_name "a  b" := by
  refine ⟨by decide, by decide, by decide⟩

/-- C4 amended: `_standardise_roi_name` trims surrounding whitespace,
lower-cases, and replaces each single space character by an underscore
(so a run of k spaces becomes k underscores, and internal tabs survive). -/
theorem standardise_roi_name_spec (s : String) :
    standardise_roi_name s = amended_standardise_name s := by
  unfold standardise_roi_name amended_standardise_name py_replace_space_underscore
  have h : ∀ cs : List Char,
      cs.map (fun c => if c = ' ' then '_' else c) = replace_each_space cs := by
    intro cs
    induction cs with
    | nil => rfl
    | cons c rest ih => simp [replace_each_space, ih]
  rw [h]

-- ===== DICOM data model =====

/-- 3D vector of DICOM decimal values. -/
abbrev Vec3 : Type := ℚ × ℚ × ℚ

/-- Cross product of two 3D vectors (numpy `cross`). -/
def cross3 (u v : Vec3) : Vec3 :=
  (u.2.1 * v.2.2 - u.2.2 * v.2.1,
   u.2.2 * v.1 - u.1 * v.2.2,
   u.1 * v.2.1 - u.2.1 * v.1)

/-- Dot product of two 3D vectors (numpy `dot`). -/
def dot3 (u v : Vec3) : ℚ :=
  u.1 * v.1 + u.2.1 * v.2.1 + u.2.2 * v.2.2

/-- A decoded DICOM slice record (the fields of `pydicom.Dataset` the
pipeline reads). Decimal-string values are embedded as rationals; the
model's domain is records that carry all of these fields, matching the
spec's SliceRecord. `ImageOrientationPatient` is the 6-vector split into
its two direction cosines, `PixelSpacing` is its 2 values. -/
structure Dicom where
  sopClassUID : Option String
  patientID : String
  modality : String
  manufacturer : String
  manufacturerModelName : String
  studyDate : String
  rows : Nat
  columns : Nat
  pixelSpacing : ℚ × ℚ
  sliceThickness : ℚ
  iop1 : Vec3
  iop2 : Vec3
  imagePositionPatient : Vec3
  rescaleSlope : ℚ
  rescaleIntercept : ℚ
  pixelArray : Arr2 ℚ
deriving DecidableEq

/-- SOP Class UID of a CT image slice. -/
def CT_IMAGE : String := "1.2.840.10008.5.1.4.1.1.2"

/-- SOP Class UID of an RT structure set. -/
def RT_STRUCTURE_SET : String := "1.2.840.10008.5.1.4.1.1.481.3"

/-- Embeds `_dicom_type_is` (dicom.py lines 54-57): a record matches a content
type when it has a SOPClassUID equal to the given UID; records without
the attribute never match. -/
def dicom_type_is (d : Dicom) (uid : String) : Bool :=
  match d.sopClassUID with
  | some u => u = uid
  | none => false

/-- The extraction object built by `rt_utils.RTStructBuilder.create_from`
for one structure-set file: its enumerated ROI names, and per-name mask
extraction where `none` embeds a raised extraction error (_load_roi_mask
catches it and returns None). -/
structure RTStruct where
  roiNames : List String
  getMask : String → Option (Arr3 Bool)

/-- One file on disk: its path, the record `pydicom.dcmread(path,
force=True)` decodes it to, and, when it is a structure-set file, the
extraction object `RTStructBuilder.create_from` yields for it (`none`
embeds a raised build error).

Modelled from the spec: the missing `list_files` helper
(`turtwig/futils/path.py`) lists a directory recursively as a sequence of
paths in directory-walk order with no ordering guarantee, so a directory
is embedded as its listed files, in listing order. -/
structure FSFile where
  path : String
  ds : Dicom
  rtBuild : Option RTStruct

/-- Python `str.endswith`: suffix test on the characters. -/
def py_endswith (s suffix : String) : Bool :=
  suffix.toList.isSuffixOf s.toList

/-- Embeds `_get_dicom_slices` (dicom.py lines 105-116): decode every listed
file whose name ends in ".dcm", in listing order. -/
def get_dicom_slices (files : List FSFile) : List Dicom :=
  (files.filter (fun f => py_endswith f.path ".dcm")).map (fun f => f.ds)

/-- Embeds `_dicom_slice_order` (dicom.py lines 64-76): the scalar slice-order
key dot(ImagePositionPatient, cross(iop first half, iop second half)). -/
def dicom_slice_order (d : Dicom) : ℚ :=
  dot3 d.imagePositionPatient (cross3 d.iop1 d.iop2)

/-- Python `sorted(..., key=k)`: a stable ascending sort by the key,
embedded with the stable `List.insertionSort`. -/
def py_sorted_by_key {α : Type} (key : α → ℚ) (l : List α) : List α :=
  @List.insertionSort α (fun a b => key a ≤ key b)
    (fun a b => inferInstanceAs (Decidable (key a ≤ key b))) l

/-- Embeds `_get_ct_image_slices` (dicom.py lines 118-130): keep the CT-image
records, drop slices whose thickness is not positive, sort by the
slice-order key. -/
def get_ct_image_slices (files : List FSFile) : List Dicom :=
  py_sorted_by_key dicom_slice_order
    (((get_dicom_slices files).filter (fun d => dicom_type_is d CT_IMAGE)).filter
      (fun d => decide (0 < d.sliceThickness)))

-- ===== Uniform spacing =====

/-- The per-slice spacing row `[PixelSpacing x, PixelSpacing y,
SliceThickness]` built by `_get_uniform_spacing`. -/
def spacing_row (d : Dicom) : List ℚ :=
  [d.pixelSpacing.1, d.pixelSpacing.2, d.sliceThickness]

/-- The `is_uniform` check of `_get_uniform_spacing`: every column of the
spacing matrix is constant (each entry equals the first of its column). -/
def spacings_uniform (rows : List (List ℚ)) : Bool :=
  (List.range (rows.headD []).length).all (fun axis =>
    rows.all (fun r => decide (r.getD axis 0 = (rows.headD []).getD axis 0)))

/-- First three entries of a row as a triple (`tuple(spacings[0])`). -/
def row_to_triple (r : List ℚ) : ℚ × ℚ × ℚ :=
  (r.getD 0 0, r.getD 1 0, r.getD 2 0)

/-- Embeds `_get_uniform_spacing` (dicom.py lines 79-102): the common spacing
triple when it is identical across all slices, else None. -/
def get_uniform_spacing (slices : List Dicom) : Option (ℚ × ℚ × ℚ) :=
  let rows := slices.map spacing_row
  if rows.isEmpty then none
  else if spacings_uniform rows then some (row_to_triple (rows.headD []))
  else none

/-- The spacing triple of one slice, as the claims state it. -/
def slice_spacing_triple (d : Dicom) : ℚ × ℚ × ℚ :=
  (d.pixelSpacing.1, d.pixelSpacing.2, d.sliceThickness)

/-- Two spacing rows agree exactly when the spacing triples agree. -/
theorem spacing_row_eq_iff (a b : Dicom) :
    spacing_row a = spacing_row b ↔ slice_spacing_triple a = slice_spacing_triple b := by
  simp [spacing_row, slice_spacing_triple, Prod.ext_iff]

/-- The per-axis uniformity check succeeds exactly when every slice has the
same spacing row as the first slice. -/
theorem spacings_uniform_cons (d0 : Dicom) (rest : List Dicom) :
    spacings_uniform ((d0 :: rest).map spacing_row) = true ↔
      ∀ d ∈ rest, spacing_row d = spacing_row d0 := by
  unfold spacings_uniform
  have h3 : ((((d0 :: rest).map spacing_row).headD []).length) = 3 := rfl
  rw [h3]
  have hr : List.range 3 = [0, 1, 2] := rfl
  rw [hr, List.all_cons, List.all_cons, List.all_cons, List.all_nil]
  simp only [Bool.and_true, Bool.and_eq_true, List.all_eq_true, decide_eq_true_eq,
    List.map_cons, List.headD_cons]
  constructor
  · rintro ⟨h0, h1, h2⟩ d hd
    have hmem : spacing_row d ∈ spacing_row d0 :: rest.map spacing_row :=
      List.mem_cons_of_mem _ (List.mem_map_of_mem _ hd)
    have e0 := h0 _ hmem
    have e1 := h1 _ hmem
    have e2 := h2 _ hmem
    show [d.pixelSpacing.1, d.pixelSpacing.2, d.sliceThickness] =
      [d0.pixelSpacing.1, d0.pixelSpacing.2, d0.sliceThickness]
    simp only [spacing_row, List.getD_cons_zero, List.getD_cons_succ] at e0 e1 e2
    rw [e0, e1, e2]
  · intro hall
    refine ⟨?_, ?_, ?_⟩ <;>
      · intro r hrmem
        rcases List.mem_cons.mp hrmem with hre | hre
        · rw [hre]
        · obtain ⟨d, hd, rfl⟩ := List.mem_map.mp hre
          rw [hall d hd]

/-- C5: for a non-empty slice list, `_get_uniform_spacing` returns a triple
exactly when every slice carries that same (pixel-spacing-x,
pixel-spacing-y, slice-thickness) triple, and returns None exactly when no
common triple exists. -/
theorem get_uniform_spacing_spec (slices : List Dicom) (h : slices ≠ []) :
    (∀ t, get_uniform_spacing slices = some t ↔
        ∀ d ∈ slices, slice_spacing_triple d = t)
    ∧ (get_uniform_spacing slices = none ↔
        ¬ ∃ t, ∀ d ∈ slices, slice_spacing_triple d = t) := by
  match slices, h with
  | d0 :: rest, _ =>
    have hmain : ∀ t, get_uniform_spacing (d0 :: rest) = some t ↔
        ∀ d ∈ d0 :: rest, slice_spacing_triple d = t := by
      intro t
      unfold get_uniform_spacing
      simp only [List.map_cons, List.isEmpty_cons, Bool.false_eq_true, if_false]
      have hrow : row_to_triple ((spacing_row d0 :: rest.map spacing_row).headD []) =
          slice_spacing_triple d0 := rfl
      have hcons : (spacing_row d0 :: rest.map spacing_row) =
          ((d0 :: rest).map spacing_row) := by simp
      by_cases hu : spacings_uniform (spacing_row d0 :: rest.map spacing_row) = true
      · rw [if_pos hu, hrow]
        have hall := (spacings_uniform_cons d0 rest).mp (hcons ▸ hu)
        constructor
        · rintro h' d hd
          simp only [Option.some.injEq] at h'
          rcases List.mem_cons.mp hd with rfl | hd2
          · exact h'
          · rw [← h', ← (spacing_row_eq_iff d d0).mp (hall d hd2)]
        · intro h'
          exact congrArg some (h' d0 (by simp))
      · rw [if_neg hu]
        constructor
        · intro h'; exact absurd h' (by simp)
        · intro h'
          exfalso
          apply hu
          rw [hcons, spacings_uniform_cons d0 rest]
          intro d hd
          rw [spacing_row_eq_iff d d0, h' d (List.mem_cons_of_mem _ hd),
            h' d0 (by simp)]
    refine ⟨hmain, ?_⟩
    constructor
    · intro hnone ⟨t, hall⟩
      have := (hmain t).mpr hall
      rw [hnone] at this
      exact Option.noConfusion this
    · intro hne
      cases hval : get_uniform_spacing (d0 :: rest) with
      | none => rfl
      | some t => exact absurd ⟨t, (hmain t).mp hval⟩ hne

-- ===== Concrete records for witnesses and counterexamples =====

/-- A well-formed CT image slice used as the base of concrete examples. -/
def baseSlice : Dicom :=
  { sopClassUID := some CT_IMAGE, patientID := "p0", modality := "CT",
    manufacturer := "GE", manufacturerModelName := "M1", studyDate := "20200101",
    rows := 1, columns := 1, pixelSpacing := (1, 1), sliceThickness := 1,
    iop1 := (1, 0, 0), iop2 := (0, 1, 0), imagePositionPatient := (0, 0, 0),
    rescaleSlope := 1, rescaleIntercept := 0, pixelArray := [[0]] }

/-- A slice with the given spacing triple. -/
def sliceSp (sx sy th : ℚ) : Dicom :=
  { baseSlice with pixelSpacing := (sx, sy), sliceThickness := th }

/-- C5 witness: three slices with spacing (2.4, 1.5, 1.0) give
some (2.4, 1.5, 1.0); slices with spacings (2.4, 1.5, 1.0) and
(5.0, 2.0, 1.0) give None. -/
theorem get_uniform_spacing_spec_witness :
    ([sliceSp 2.4 1.5 1.0, sliceSp 2.4 1.5 1.0, sliceSp 2.4 1.5 1.0] : List Dicom) ≠ [] ∧
    get_uniform_spacing [sliceSp 2.4 1.5 1.0, sliceSp 2.4 1.5 1.0, sliceSp 2.4 1.5 1.0] =
      some (2.4, 1.5, 1.0) ∧
    get_uniform_spacing [sliceSp 2.4 1.5 1.0, sliceSp 5.0 2.0 1.0] = none := by
  refine ⟨by simp, ?_, ?_⟩
  · exact ((get_uniform_spacing_spec _ (by simp)).1 (2.4, 1.5, 1.0)).mpr
      (by
        intro d hd
        simp only [List.mem_cons, List.not_mem_nil, or_false] at hd
        rcases hd with rfl | rfl | rfl <;> rfl)
  · exact (get_uniform_spacing_spec _ (by simp)).2.mpr
      (by
        rintro ⟨t, hall⟩
        have h1 := hall (sliceSp 2.4 1.5 1.0) (by simp)
        have h2 := hall (sliceSp 5.0 2.0 1.0) (by simp)
        rw [← h2] at h1
        have : (2.4 : ℚ) = 5.0 := congrArg Prod.fst h1
        norm_num at this)

-- ===== C2: ordered CT slice sequence =====

/-- C2 (amended): the ordered slice sequence is a permutation of the
decoded records that are CT-image typed with positive thickness, it is
sorted in ascending slice-order key, and when the kept records have
pairwise distinct keys the result does not depend on the listing order. -/
theorem get_ct_image_slices_spec (files : List FSFile) :
    (get_ct_image_slices files).Perm
      (((get_dicom_slices files).filter (fun d => dicom_type_is d CT_IMAGE)).filter
        (fun d => decide (0 < d.sliceThickness)))
    ∧ List.Sorted (fun a b => dicom_slice_order a ≤ dicom_slice_order b)
        (get_ct_image_slices files)
    ∧ ∀ files2 : List FSFile, files.Perm files2 →
        (((get_dicom_slices files).filter (fun d => dicom_type_is d CT_IMAGE)).filter
          (fun d => decide (0 < d.sliceThickness))).Pairwise
          (fun a b => dicom_slice_order a ≠ dicom_slice_order b) →
        get_ct_image_slices files = get_ct_image_slices files2 := by
  haveI hTot : IsTotal Dicom (fun a b => dicom_slice_order a ≤ dicom_slice_order b) :=
    ⟨fun a b => le_total _ _⟩
  haveI hTrans : IsTrans Dicom (fun a b => dicom_slice_order a ≤ dicom_slice_order b) :=
    ⟨fun a b c hab hbc => le_trans hab hbc⟩
  refine ⟨List.perm_insertionSort _ _, List.sorted_insertionSort _ _, ?_⟩
  intro files2 hperm hdistinct
  haveI : IsAntisymm Dicom (fun a b => dicom_slice_order a < dicom_slice_order b) :=
    ⟨fun a b h1 h2 => absurd (lt_trans h1 h2) (lt_irrefl _)⟩
  set kept1 := ((get_dicom_slices files).filter (fun d => dicom_type_is d CT_IMAGE)).filter
    (fun d => decide (0 < d.sliceThickness)) with hkept1
  set kept2 := ((get_dicom_slices files2).filter (fun d => dicom_type_is d CT_IMAGE)).filter
    (fun d => decide (0 < d.sliceThickness)) with hkept2
  have hkeep : kept1.Perm kept2 :=
    (((hperm.filter (fun f => py_endswith f.path ".dcm")).map (fun f => f.ds)).filter
      (fun d => dicom_type_is d CT_IMAGE)).filter (fun d => decide (0 < d.sliceThickness))
  have hsym : ∀ {x y : Dicom}, dicom_slice_order x ≠ dicom_slice_order y →
      dicom_slice_order y ≠ dicom_slice_order x := fun h => h ∘ Eq.symm
  have hsort1 : (get_ct_image_slices files).Perm kept1 := List.perm_insertionSort _ _
  have hsort2 : (get_ct_image_slices files2).Perm kept2 := List.perm_insertionSort _ _
  have hdist1 : (get_ct_image_slices files).Pairwise
      (fun a b => dicom_slice_order a ≠ dicom_slice_order b) :=
    hsort1.symm.pairwise hdistinct hsym
  have hdist2 : (get_ct_image_slices files2).Pairwise
      (fun a b => dicom_slice_order a ≠ dicom_slice_order b) :=
    (hkeep.trans hsort2.symm).pairwise hdistinct hsym
  have hstrict1 : List.Sorted (fun a b => dicom_slice_order a < dicom_slice_order b)
      (get_ct_image_slices files) :=
    ((List.sorted_insertionSort _ _).and hdist1).imp
      (fun h => lt_of_le_of_ne h.1 h.2)
  have hstrict2 : List.Sorted (fun a b => dicom_slice_order a < dicom_slice_order b)
      (get_ct_image_slices files2) :=
    ((List.sorted_insertionSort _ _).and hdist2).imp
      (fun h => lt_of_le_of_ne h.1 h.2)
  exact List.eq_of_perm_of_sorted
    (hsort1.trans (hkeep.trans hsort2.symm)) hstrict1 hstrict2

/-- A listed CT file whose slice thickness is -1 (not exactly zero). -/
def negThickFile : FSFile :=
  ⟨"f1.dcm", { baseSlice with sliceThickness := -1 }, none⟩

/-- Two CT files with identical geometry (equal slice-order keys) but
different patient ids. -/
def tieFileA : FSFile := ⟨"a.dcm", { baseSlice with patientID := "A" }, none⟩

/-- Second of the two equal-key CT files. -/
def tieFileB : FSFile := ⟨"b.dcm", { baseSlice with patientID := "B" }, none⟩

/-- C2 counterexample: a CT slice with thickness -1 (not exactly zero) is
dropped by the code, and two distinct records with equal slice-order keys
are returned in listing order, so the result depends on the listing. -/
theorem get_ct_image_slices_counterexample :
    dicom_type_is negThickFile.ds CT_IMAGE = true ∧
    negThickFile.ds.sliceThickness ≠ 0 ∧
    get_ct_image_slices [negThickFile] = [] ∧
    ([tieFileA, tieFileB] : List FSFile).Perm [tieFileB, tieFileA] ∧
    get_ct_image_slices [tieFileA, tieFileB] = [tieFileA.ds, tieFileB.ds] ∧
    get_ct_image_slices [tieFileB, tieFileA] = [tieFileB.ds, tieFileA.ds] ∧
    tieFileA.ds ≠ tieFileB.ds := by
  have hkey : ∀ x y : String,
      dicom_slice_order { baseSlice with patientID := x } ≤
        dicom_slice_order { baseSlice with patientID := y } := by
    intro x y
    norm_num [dicom_slice_order, dot3, cross3, baseSlice]
  have hfAB : ((get_dicom_slices [tieFileA, tieFileB]).filter
      (fun d => dicom_type_is d CT_IMAGE)).filter
      (fun d => decide (0 < d.sliceThickness)) = [tieFileA.ds, tieFileB.ds] := by decide
  have hfBA : ((get_dicom_slices [tieFileB, tieFileA]).filter
      (fun d => dicom_type_is d CT_IMAGE)).filter
      (fun d => decide (0 < d.sliceThickness)) = [tieFileB.ds, tieFileA.ds] := by decide
  refine ⟨by decide, by decide, by decide, List.Perm.swap _ _ _, ?_, ?_, by decide⟩
  · show py_sorted_by_key dicom_slice_order _ = _
    rw [hfAB]
    unfold py_sorted_by_key
    simp [List.insertionSort, List.orderedInsert, tieFileA, tieFileB,
      hkey "A" "B"]
  · show py_sorted_by_key dicom_slice_order _ = _
    rw [hfBA]
    unfold py_sorted_by_key
    simp [List.insertionSort, List.orderedInsert, tieFileA, tieFileB,
      hkey "B" "A"]

/-- A CT file whose slice-order key is 0. -/
def ctFileZ0 : FSFile := ⟨"z0.dcm", baseSlice, none⟩

/-- A CT file whose slice-order key is 5. -/
def ctFileZ5 : FSFile :=
  ⟨"z5.dcm", { baseSlice with imagePositionPatient := (0, 0, 5) }, none⟩

/-- C2 witness: on two CT files with distinct slice-order keys, listing
order does not change the ordered slice sequence. -/
theorem get_ct_image_slices_spec_witness :
    ([ctFileZ5, ctFileZ0] : List FSFile).Perm [ctFileZ0, ctFileZ5] ∧
    (((get_dicom_slices [ctFileZ5, ctFileZ0]).filter
        (fun d => dicom_type_is d CT_IMAGE)).filter
      (fun d => decide (0 < d.sliceThickness))).Pairwise
      (fun a b => dicom_slice_order a ≠ dicom_slice_order b) ∧
    get_ct_image_slices [ctFileZ5, ctFileZ0] = get_ct_image_slices [ctFileZ0, ctFileZ5] := by
  have hperm : ([ctFileZ5, ctFileZ0] : List FSFile).Perm [ctFileZ0, ctFileZ5] :=
    List.Perm.swap _ _ _
  have hfil : ((get_dicom_slices [ctFileZ5, ctFileZ0]).filter
      (fun d => dicom_type_is d CT_IMAGE)).filter
      (fun d => decide (0 < d.sliceThickness)) = [ctFileZ5.ds, ctFileZ0.ds] := by decide
  have hpw : (((get_dicom_slices [ctFileZ5, ctFileZ0]).filter
      (fun d => dicom_type_is d CT_IMAGE)).filter
      (fun d => decide (0 < d.sliceThickness))).Pairwise
      (fun a b => dicom_slice_order a ≠ dicom_slice_order b) := by
    rw [hfil]
    refine List.Pairwise.cons ?_ (List.pairwise_singleton _ _)
    intro b hb
    rw [List.mem_singleton] at hb
    subst hb
    norm_num [dicom_slice_order, dot3, cross3, ctFileZ5, ctFileZ0, baseSlice]
  exact ⟨hperm, hpw, (get_ct_image_slices_spec [ctFileZ5, ctFileZ0]).2.2 _ hperm hpw⟩

-- ===== Python dict over association pairs =====

/-- Keep the first occurrence of each element (Python dict key order). -/
def dedup_first {α : Type} [DecidableEq α] : List α → List α
  | [] => []
  | a :: rest => a :: (dedup_first rest).filter (fun x => decide (x ≠ a))

/-- Membership is unchanged by first-occurrence deduplication. -/
theorem mem_dedup_first {α : Type} [DecidableEq α] (a : α) (l : List α) :
    a ∈ dedup_first l ↔ a ∈ l := by
  induction l with
  | nil => simp [dedup_first]
  | cons b rest ih =>
    simp only [dedup_first, List.mem_cons, List.mem_filter, decide_eq_true_eq]
    constructor
    · rintro (rfl | ⟨hmem, _⟩)
      · exact Or.inl rfl
      · exact Or.inr (ih.mp hmem)
    · rintro (rfl | hmem)
      · exact Or.inl rfl
      · by_cases hab : a = b
        · exact Or.inl hab
        · exact Or.inr ⟨ih.mpr hmem, hab⟩

/-- Python `dict[k]` over the binding list: the value of the last binding
of `k` (later bindings overwrite earlier ones). -/
def py_dict_get {α : Type} (l : List (String × α)) (k : String) : Option α :=
  ((l.filter (fun p => decide (p.1 = k))).getLast?).map Prod.snd

/-- Python `dict(pairs)`: keys in first-binding order, values from the
last binding of each key. -/
def pydict {α : Type} (l : List (String × α)) : List (String × α) :=
  (dedup_first (l.map Prod.fst)).filterMap
    (fun k => (py_dict_get l k).map (fun v => (k, v)))

/-- Lookup `dict[k]` is defined exactly for bound keys. -/
theorem py_dict_get_isSome {α : Type} (l : List (String × α)) (k : String) :
    (py_dict_get l k).isSome = true ↔ k ∈ l.map Prod.fst := by
  unfold py_dict_get
  have hmap : ∀ o : Option (String × α), (Option.map Prod.snd o).isSome = o.isSome := by
    intro o; cases o <;> rfl
  rw [hmap, List.getLast?_isSome]
  constructor
  · intro hne
    obtain ⟨p, hp⟩ := List.exists_mem_of_ne_nil _ hne
    rw [List.mem_filter, decide_eq_true_eq] at hp
    exact List.mem_map.mpr ⟨p, hp.1, hp.2⟩
  · intro hmem
    obtain ⟨p, hpl, hpk⟩ := List.mem_map.mp hmem
    intro hnil
    have : p ∈ l.filter (fun p => decide (p.1 = k)) :=
      List.mem_filter.mpr ⟨hpl, by simpa using hpk⟩
    rw [hnil] at this
    exact List.not_mem_nil p this

/-- A looked-up value comes from a binding of the key in the list. -/
theorem py_dict_get_mem {α : Type} (l : List (String × α)) (k : String) (v : α)
    (h : py_dict_get l k = some v) : (k, v) ∈ l := by
  unfold py_dict_get at h
  obtain ⟨p, hp, hv⟩ := Option.map_eq_some'.mp h
  have hmem : p ∈ l.filter (fun p => decide (p.1 = k)) :=
    List.mem_of_getLast?_eq_some hp
  rw [List.mem_filter, decide_eq_true_eq] at hmem
  have : (k, v) = p := by
    rw [← hmem.2, ← hv]
  rw [this]
  exact hmem.1

/-- Dict keys are the bound keys. -/
theorem pydict_mem_keys {α : Type} (l : List (String × α)) (k : String) :
    k ∈ (pydict l).map Prod.fst ↔ k ∈ l.map Prod.fst := by
  unfold pydict
  constructor
  · intro hmem
    obtain ⟨p, hp, hpk⟩ := List.mem_map.mp hmem
    obtain ⟨k2, hk2, hsome⟩ := List.mem_filterMap.mp hp
    obtain ⟨v, hv, hpv⟩ := Option.map_eq_some'.mp hsome
    have : k2 = k := by rw [← hpk, ← hpv]
    rw [← this]
    exact (mem_dedup_first _ _).mp hk2
  · intro hmem
    obtain ⟨v, hv⟩ := Option.isSome_iff_exists.mp ((py_dict_get_isSome l k).mpr hmem)
    refine List.mem_map.mpr ⟨(k, v), List.mem_filterMap.mpr ⟨k, ?_, ?_⟩, rfl⟩
    · exact (mem_dedup_first _ _).mpr hmem
    · rw [hv]; rfl

/-- Every dict pair is one of the input bindings (the last one of its
key). -/
theorem pydict_mem_pairs {α : Type} (l : List (String × α)) (p : String × α)
    (h : p ∈ pydict l) : py_dict_get l p.1 = some p.2 ∧ p ∈ l := by
  unfold pydict at h
  obtain ⟨k2, _, hsome⟩ := List.mem_filterMap.mp h
  obtain ⟨v, hv, hpv⟩ := Option.map_eq_some'.mp hsome
  subst hpv
  exact ⟨hv, py_dict_get_mem _ _ _ hv⟩

-- ===== Mask extraction (StructureSetExtractor) =====

/-- Embeds `_load_roi_mask` (dicom.py lines 133-144): extraction of one ROI mask;
the `logger.catch` wrapper turns a raised extraction error into None. -/
def load_roi_mask (name : String) (rt_struct : RTStruct) : Option (Arr3 Bool) :=
  rt_struct.getMask name

/-- The mask pipeline of `load_mask` (dicom.py lines 237-248), the spec's
`extract_masks`: pair each enumerated ROI name with its extraction result,
drop failed extractions, orientation-normalize each surviving mask,
standardize each name, and build the dict. -/
def extract_masks (rt : RTStruct) : List (String × Arr3 Bool) :=
  pydict
    (((((rt.roiNames.map (fun n => (n, load_roi_mask n rt))).filterMap
        (fun p => p.2.map (fun m => (p.1, m)))).map
      (fun p => (p.1, flip_array p.2))).map
      (fun p => (standardise_roi_name p.1, p.2))))

/-- The bindings fed into the dict of `extract_masks`, characterized. -/
theorem extract_masks_inner_mem (rt : RTStruct) (p : String × Arr3 Bool) :
    p ∈ ((((rt.roiNames.map (fun n => (n, load_roi_mask n rt))).filterMap
        (fun p => p.2.map (fun m => (p.1, m)))).map
      (fun p => (p.1, flip_array p.2))).map
      (fun p => (standardise_roi_name p.1, p.2))) ↔
    ∃ n ∈ rt.roiNames, ∃ m, rt.getMask n = some m ∧
      p = (standardise_roi_name n, flip_array m) := by
  simp only [List.mem_map, List.mem_filterMap, Option.map_eq_some']
  constructor
  · rintro ⟨q, ⟨q2, ⟨⟨q3, ⟨n, hn, rfl⟩, m, hm, rfl⟩, rfl⟩⟩, rfl⟩
    exact ⟨n, hn, m, hm, rfl⟩
  · rintro ⟨n, hn, m, hm, rfl⟩
    exact ⟨(n, flip_array m), ⟨(n, m), ⟨(n, load_roi_mask n rt), ⟨n, hn, rfl⟩, m, hm, rfl⟩,
      rfl⟩, rfl⟩

/-- C3: `extract_masks` returns a mapping whose keys are exactly the
standardized names of the organs whose extraction succeeded, each bound to
an orientation-normalized mask of a succeeding organ of that key; a
failing organ never removes the others. -/
theorem extract_masks_spec (rt : RTStruct) :
    (∀ k, k ∈ (extract_masks rt).map Prod.fst ↔
        ∃ n ∈ rt.roiNames, standardise_roi_name n = k ∧ (rt.getMask n).isSome = true)
    ∧ (∀ p ∈ extract_masks rt, ∃ n ∈ rt.roiNames, ∃ m,
        rt.getMask n = some m ∧ p.1 = standardise_roi_name n ∧ p.2 = flip_array m) := by
  constructor
  · intro k
    rw [extract_masks, pydict_mem_keys]
    constructor
    · intro hmem
      obtain ⟨p, hp, hpk⟩ := List.mem_map.mp hmem
      obtain ⟨n, hn, m, hm, rfl⟩ := (extract_masks_inner_mem rt p).mp hp
      exact ⟨n, hn, hpk, by rw [hm]; rfl⟩
    · rintro ⟨n, hn, hk, hsome⟩
      obtain ⟨m, hm⟩ := Option.isSome_iff_exists.mp hsome
      refine List.mem_map.mpr ⟨(standardise_roi_name n, flip_array m), ?_, hk⟩
      exact (extract_masks_inner_mem rt _).mpr ⟨n, hn, m, hm, rfl⟩
  · intro p hp
    have := (pydict_mem_pairs _ _ hp).2
    obtain ⟨n, hn, m, hm, rfl⟩ := (extract_masks_inner_mem rt p).mp this
    exact ⟨n, hn, m, hm, rfl, rfl⟩

/-- The spec's partial-failure example: three organs, extraction of the
second raises, the others succeed. -/
def rtThreeOrgans : RTStruct :=
  { roiNames := ["Organ 1", "Organ 2", "Organ 3"],
    getMask := fun n =>
      if n = "Organ 1" then some [[[true]]]
      else if n = "Organ 3" then some [[[false]]]
      else none }

/-- C3 witness: with organs ok/raises/ok the mapping holds exactly
organ_1 and organ_3, standardized. -/
theorem extract_masks_spec_witness :
    ("organ_1" ∈ (extract_masks rtThreeOrgans).map Prod.fst) ∧
    ¬ ("organ_2" ∈ (extract_masks rtThreeOrgans).map Prod.fst) ∧
    ("organ_3" ∈ (extract_masks rtThreeOrgans).map Prod.fst) ∧
    (∀ p ∈ extract_masks rtThreeOrgans, ∃ n ∈ rtThreeOrgans.roiNames, ∃ m,
        rtThreeOrgans.getMask n = some m ∧ p.1 = standardise_roi_name n ∧
        p.2 = flip_array m) := by
  refine ⟨?_, ?_, ?_, (extract_masks_spec rtThreeOrgans).2⟩
  · exact ((extract_masks_spec rtThreeOrgans).1 "organ_1").mpr
      ⟨"Organ 1", by decide, by decide, by decide⟩
  · have hno : ¬ ∃ n ∈ rtThreeOrgans.roiNames, standardise_roi_name n = "organ_2" ∧
        (rtThreeOrgans.getMask n).isSome = true := by decide
    exact fun hmem => hno (((extract_masks_spec rtThreeOrgans).1 "organ_2").mp hmem)
  · exact ((extract_masks_spec rtThreeOrgans).1 "organ_3").mpr
      ⟨"Organ 3", by decide, by decide, by decide⟩

-- ===== Python int() and datetime.date =====

/-- Python `int(...)` digit-group syntax: digits with single underscores
allowed only between digits. -/
def py_digits_ok : List Char → Bool
  | [] => false
  | [c] => c.isDigit
  | c :: '_' :: rest => c.isDigit && py_digits_ok rest
  | c :: rest => c.isDigit && py_digits_ok rest

/-- Value of a digit group, skipping separators. -/
def py_digits_val (cs : List Char) : ℕ :=
  cs.foldl (fun n c => if c = '_' then n else n * 10 + (c.toNat - '0'.toNat)) 0

/-- Python `int(str)`: strip surrounding whitespace, optional sign, digit
group; anything else raises (None). -/
def py_int (s : String) : Option ℤ :=
  let cs := ((s.toList.dropWhile py_isspace).reverse.dropWhile py_isspace).reverse
  match cs with
  | '+' :: rest => if py_digits_ok rest then some (py_digits_val rest) else none
  | '-' :: rest => if py_digits_ok rest then some (-(py_digits_val rest : ℤ)) else none
  | rest => if py_digits_ok rest then some (py_digits_val rest) else none

/-- Python calendar leap year. -/
def py_is_leap (y : ℤ) : Bool :=
  decide (y % 4 = 0) && (decide (y % 100 ≠ 0) || decide (y % 400 = 0))

/-- Days in a month of Python's proleptic Gregorian calendar. -/
def py_days_in_month (y m : ℤ) : ℤ :=
  if m = 2 then (if py_is_leap y then 29 else 28)
  else if m = 4 ∨ m = 6 ∨ m = 9 ∨ m = 11 then 30
  else 31

/-- A Python `datetime.date` value. -/
structure PyDate where
  year : ℤ
  month : ℤ
  day : ℤ
deriving DecidableEq

/-- Python `date(y, m, d)`: validates ranges, raising (None) otherwise. -/
def py_date (y m d : ℤ) : Option PyDate :=
  if 1 ≤ y ∧ y ≤ 9999 ∧ 1 ≤ m ∧ m ≤ 12 ∧ 1 ≤ d ∧ d ≤ py_days_in_month y m
  then some ⟨y, m, d⟩ else none

/-- The StudyDate parse of `load_patient_scan`:
`date(int(s[0:-4]), int(s[4:6]), int(s[6:]))`; a parse or range failure is
an exception at the dict construction, caught by the scan boundary. -/
def parse_study_date (s : String) : Option PyDate :=
  let cs := s.toList
  match py_int (String.mk (cs.take (cs.length - 4))) with
  | none => none
  | some y =>
    match py_int (String.mk ((cs.drop 4).take 2)) with
    | none => none
    | some m =>
      match py_int (String.mk (cs.drop 6)) with
      | none => none
      | some d => py_date y m d

-- ===== Volume assembly =====

/-- Map with the element index, counting from the given start. -/
def map_idx_from {α β : Type} (f : ℕ → α → β) : ℕ → List α → List β
  | _, [] => []
  | i, a :: rest => f i a :: map_idx_from f (i + 1) rest

/-- The row-length profile of a 2D array: its numpy shape (row count is
the profile's length, the widths its entries). -/
def shape_profile (s : Arr2 ℚ) : List ℕ :=
  s.map List.length

/-- numpy `stack(slices, axis=-1)` on 2D slices: when every slice has the
shape of the first, the (h, w) cell of the result lists the (h, w) cells
across the slices; on mismatched shapes (or an empty sequence) numpy
raises ValueError, rendered as None. -/
def np_stack_last (slices : List (Arr2 ℚ)) : Option (Arr3 ℚ) :=
  match slices with
  | [] => none
  | s0 :: rest =>
    if (s0 :: rest).all (fun sl => decide (shape_profile sl = shape_profile s0)) then
      some (map_idx_from (fun h row =>
        map_idx_from (fun w _ =>
          (s0 :: rest).map (fun sl => (sl.getD h []).getD w 0)) 0 row) 0 s0)
    else none

/-- Embeds `load_volume` (dicom.py lines 173-209): rescale each ordered CT slice
into Hounsfield units via value * slope + intercept, stack along a new
trailing axis, orientation-normalize. The function has no catch boundary
of its own: it returns None (`Except.ok none`) when there are no slices,
and a shape mismatch makes the numpy stack raise out of the function
(`Except.error ()`), to be caught by a caller's boundary. -/
def load_volume (files : List FSFile) : Except Unit (Option (Arr3 ℚ)) :=
  let slices := get_ct_image_slices files
  let hu := slices.map (fun d => d.pixelArray.map (fun row =>
    row.map (fun v => v * d.rescaleSlope + d.rescaleIntercept)))
  if hu.isEmpty then .ok none
  else
    match np_stack_last hu with
    | none => .error ()
    | some v => .ok (some (flip_array v))

-- ===== Mask loading =====

/-- Embeds `_load_rt_structs` (dicom.py lines 147-170): the builder results for
the listed ".dcm" files typed as structure sets, in listing order. -/
def load_rt_structs (files : List FSFile) : List (Option RTStruct) :=
  ((files.filter (fun f => py_endswith f.path ".dcm")).filter
    (fun f => dicom_type_is f.ds RT_STRUCTURE_SET)).map (fun f => f.rtBuild)

/-- Materializing a lazy sequence (Python `list(...)`): the first raised
build error escapes, otherwise all elements are produced. -/
def opt_sequence {α : Type} : List (Option α) → Option (List α)
  | [] => some []
  | none :: _ => none
  | some a :: rest => (opt_sequence rest).map (fun l => a :: l)

/-- Embeds `load_mask` (dicom.py lines 212-248): build the structure-set
extraction objects; a raised build error or an empty list is caught by the
function's own catch boundary (None); otherwise extract masks from the
first object. -/
def load_mask (files : List FSFile) : Option (List (String × Arr3 Bool)) :=
  match opt_sequence (load_rt_structs files) with
  | none => none
  | some [] => none
  | some (rt :: _) => some (extract_masks rt)

-- ===== Patient scan aggregation =====

/-- The `DicomDict` scan record returned by `load_patient_scan`. -/
structure DicomDict where
  patient_id : String
  volume : Arr3 ℚ
  masks : List (String × Arr3 Bool)
  dimension_original : ℕ × ℕ × ℕ
  spacings : ℚ × ℚ × ℚ
  modality : String
  manufacturer : String
  scanner : String
  study_date : PyDate
deriving DecidableEq

/-- Embeds `load_patient_scan` (dicom.py lines 251-301): order the CT slices and
check the uniform spacing; load the volume and the mask dict; a raised
data error (no slices, non-uniform spacing, a numpy stack error escaping
`load_volume` on mismatched slice shapes, missing volume, missing or
empty masks, or a StudyDate parse failure) is converted to None by the
function's catch boundary; otherwise the scan record is built from the
first ordered slice's metadata. -/
def load_patient_scan (files : List FSFile) : Option DicomDict :=
  match get_ct_image_slices files, get_uniform_spacing (get_ct_image_slices files) with
  | [], _ => none
  | _ :: _, none => none
  | d0 :: rest, some sp =>
    match load_volume files, load_mask files with
    | .error _, _ => none
    | .ok none, _ => none
    | .ok (some _), none => none
    | .ok (some vol), some masks =>
      if masks.isEmpty then none
      else
        match parse_study_date d0.studyDate with
        | none => none
        | some dt =>
          some { patient_id := d0.patientID, volume := vol, masks := masks,
                 dimension_original := (d0.rows, d0.columns, (d0 :: rest).length),
                 spacings := sp, modality := d0.modality,
                 manufacturer := d0.manufacturer,
                 scanner := d0.manufacturerModelName, study_date := dt }

/-- C1 (amended): `load_patient_scan` returns None exactly when there are
no image slices, the spacing is non-uniform, the numpy stack raises out
of `load_volume` because the slices' pixel arrays do not share one shape,
the volume is absent, the mask dict is absent or empty, or the first
slice's StudyDate fails to parse as a valid date; in every other case it
returns a record whose metadata comes from the first ordered slice, and
the internal data error never escapes (the result is always a plain
Option). -/
theorem load_patient_scan_spec (files : List FSFile) :
    (load_patient_scan files = none ↔
      get_ct_image_slices files = [] ∨
      get_uniform_spacing (get_ct_image_slices files) = none ∨
      load_volume files = .error () ∨
      load_volume files = .ok none ∨
      load_mask files = none ∨ load_mask files = some [] ∨
      (∃ d0, (get_ct_image_slices files).head? = some d0 ∧
        parse_study_date d0.studyDate = none))
    ∧ (∀ scan, load_patient_scan files = some scan →
        ∃ d0, (get_ct_image_slices files).head? = some d0 ∧
          scan.patient_id = d0.patientID ∧ scan.modality = d0.modality ∧
          scan.manufacturer = d0.manufacturer ∧
          scan.scanner = d0.manufacturerModelName ∧
          scan.dimension_original =
            (d0.rows, d0.columns, (get_ct_image_slices files).length) ∧
          get_uniform_spacing (get_ct_image_slices files) = some scan.spacings ∧
          parse_study_date d0.studyDate = some scan.study_date) := by
  cases hs : get_ct_image_slices files with
  | nil =>
    constructor
    · constructor
      · intro _; exact Or.inl rfl
      · intro _; simp [load_patient_scan, hs]
    · intro scan hscan
      simp [load_patient_scan, hs] at hscan
  | cons d0 rest =>
    cases hsp : get_uniform_spacing (d0 :: rest) with
    | none =>
      have hnone : load_patient_scan files = none := by
        simp [load_patient_scan, hs, hsp]
      constructor
      · exact ⟨fun _ => Or.inr (Or.inl rfl), fun _ => hnone⟩
      · intro scan hscan
        rw [hnone] at hscan
        exact Option.noConfusion hscan
    | some sp =>
      cases hv : load_volume files with
      | error e =>
        cases e
        have hnone : load_patient_scan files = none := by
          simp [load_patient_scan, hs, hsp, hv]
        constructor
        · exact ⟨fun _ => Or.inr (Or.inr (Or.inl rfl)), fun _ => hnone⟩
        · intro scan hscan
          rw [hnone] at hscan
          exact Option.noConfusion hscan
      | ok o =>
        cases o with
        | none =>
          have hnone : load_patient_scan files = none := by
            simp [load_patient_scan, hs, hsp, hv]
          constructor
          · exact ⟨fun _ => Or.inr (Or.inr (Or.inr (Or.inl rfl))), fun _ => hnone⟩
          · intro scan hscan
            rw [hnone] at hscan
            exact Option.noConfusion hscan
        | some vol =>
          cases hm : load_mask files with
          | none =>
            have hnone : load_patient_scan files = none := by
              simp [load_patient_scan, hs, hsp, hv, hm]
            constructor
            · exact ⟨fun _ => Or.inr (Or.inr (Or.inr (Or.inr (Or.inl rfl)))),
                fun _ => hnone⟩
            · intro scan hscan
              rw [hnone] at hscan
              exact Option.noConfusion hscan
          | some masks =>
            by_cases hme : masks.isEmpty = true
            · have hmnil : masks = [] := List.isEmpty_iff.mp hme
              have hnone : load_patient_scan files = none := by
                simp [load_patient_scan, hs, hsp, hv, hm, hme]
              constructor
              · refine ⟨fun _ => Or.inr (Or.inr (Or.inr (Or.inr (Or.inr
                  (Or.inl ?_))))), fun _ => hnone⟩
                rw [hmnil]
              · intro scan hscan
                rw [hnone] at hscan
                exact Option.noConfusion hscan
            · have hme2 : masks.isEmpty = false := by
                cases hval : masks.isEmpty
                · rfl
                · exact absurd hval hme
              cases hd : parse_study_date d0.studyDate with
              | none =>
                have hnone : load_patient_scan files = none := by
                  simp [load_patient_scan, hs, hsp, hv, hm, hme2, hd]
                constructor
                · refine ⟨fun _ => Or.inr (Or.inr (Or.inr (Or.inr (Or.inr
                    (Or.inr ⟨d0, rfl, hd⟩))))), fun _ => hnone⟩
                · intro scan hscan
                  rw [hnone] at hscan
                  exact Option.noConfusion hscan
              | some dt =>
                have hsome : load_patient_scan files =
                    some { patient_id := d0.patientID, volume := vol, masks := masks,
                           dimension_original := (d0.rows, d0.columns, (d0 :: rest).length),
                           spacings := sp, modality := d0.modality,
                           manufacturer := d0.manufacturer,
                           scanner := d0.manufacturerModelName, study_date := dt } := by
                  simp [load_patient_scan, hs, hsp, hv, hm, hme2, hd]
                constructor
                · constructor
                  · intro hcontra
                    rw [hsome] at hcontra
                    exact Option.noConfusion hcontra
                  · rintro (h1 | h2 | h3 | h4 | h5 | h6 | ⟨d1, hd1, hp1⟩)
                    · exact List.noConfusion h1
                    · exact Option.noConfusion h2
                    · exact Except.noConfusion h3
                    · exact Option.noConfusion (Except.ok.inj h4)
                    · exact Option.noConfusion h5
                    · have : masks = [] := Option.some.inj h6
                      rw [this] at hme
                      exact (hme rfl).elim
                    · have heq : d0 = d1 := Option.some.inj hd1
                      rw [← heq] at hp1
                      rw [hd] at hp1
                      exact Option.noConfusion hp1
                · intro scan hscan
                  rw [hsome] at hscan
                  obtain rfl := Option.some.inj hscan
                  exact ⟨d0, rfl, rfl, rfl, rfl, rfl, rfl, rfl, hd⟩

/-- A structure set with a single extractable organ. -/
def rtSingle : RTStruct :=
  { roiNames := ["organ"],
    getMask := fun n => if n = "organ" then some [[[true]]] else none }

/-- A CT image file with well-formed metadata. -/
def exCTFile : FSFile := ⟨"ct.dcm", baseSlice, none⟩

/-- A structure-set file whose builder yields `rtSingle`. -/
def exRTFile : FSFile :=
  ⟨"rt.dcm", { baseSlice with sopClassUID := some RT_STRUCTURE_SET }, some rtSingle⟩

/-- A directory from which a complete scan loads. -/
def exGoodFiles : List FSFile := [exCTFile, exRTFile]

/-- The same CT file with an empty (unparseable) StudyDate. -/
def exBadDateFile : FSFile := ⟨"ct.dcm", { baseSlice with studyDate := "" }, none⟩

/-- A directory that is complete except for the StudyDate field. -/
def exBadFiles : List FSFile := [exBadDateFile, exRTFile]

/-- A CT slice with the same metadata and geometry as `baseSlice` but a
1x2 pixel array. -/
def wideSlice : Dicom :=
  { baseSlice with columns := 2, pixelArray := [[0, 0]] }

/-- A file carrying `wideSlice`. -/
def shapeFileB : FSFile := ⟨"b.dcm", wideSlice, none⟩

/-- A directory whose two CT slices have identical spacing triples but
different pixel-array shapes (1x1 and 1x2), plus the structure set. -/
def exShapeFiles : List FSFile := [exCTFile, shapeFileB, exRTFile]

/-- The scan record loaded from `exGoodFiles`. -/
def exScan : DicomDict :=
  { patient_id := "p0", volume := [[[0]]], masks := [("organ", [[[true]]])],
    dimension_original := (1, 1, 1), spacings := (1, 1, 1), modality := "CT",
    manufacturer := "GE", scanner := "M1", study_date := ⟨2020, 1, 1⟩ }

/-- The volume of `exGoodFiles` and `exBadFiles` evaluates to a 1x1x1
array. -/
theorem load_volume_exGood : load_volume exGoodFiles = .ok (some [[[0]]]) ∧
    load_volume exBadFiles = .ok (some [[[0]]]) := by
  have h1 : get_ct_image_slices exGoodFiles = [baseSlice] := by decide
  have h2 : get_ct_image_slices exBadFiles =
      [{ baseSlice with studyDate := "" }] := by decide
  have harr1 : (get_ct_image_slices exGoodFiles).map (fun d =>
      d.pixelArray.map (fun row =>
        row.map (fun v => v * d.rescaleSlope + d.rescaleIntercept))) =
      [[[(0 : ℚ)]]] := by
    rw [h1]
    norm_num [baseSlice]
  have harr2 : (get_ct_image_slices exBadFiles).map (fun d =>
      d.pixelArray.map (fun row =>
        row.map (fun v => v * d.rescaleSlope + d.rescaleIntercept))) =
      [[[(0 : ℚ)]]] := by
    rw [h2]
    norm_num [baseSlice]
  constructor
  · simp only [load_volume]
    rw [harr1]
    rfl
  · simp only [load_volume]
    rw [harr2]
    rfl

/-- The ordered CT slices of `exShapeFiles`: the two equal-key slices, in
listing order. -/
theorem exShape_slices : get_ct_image_slices exShapeFiles = [baseSlice, wideSlice] := by
  have hfil : ((get_dicom_slices exShapeFiles).filter
      (fun d => dicom_type_is d CT_IMAGE)).filter
      (fun d => decide (0 < d.sliceThickness)) = [baseSlice, wideSlice] := by decide
  have hkey : dicom_slice_order baseSlice ≤ dicom_slice_order wideSlice := by
    norm_num [dicom_slice_order, dot3, cross3, baseSlice, wideSlice]
  show py_sorted_by_key dicom_slice_order _ = _
  rw [hfil]
  unfold py_sorted_by_key
  simp [List.insertionSort, List.orderedInsert, hkey]

/-- On `exShapeFiles` the numpy stack raises: the HU-scaled slices have
shapes 1x1 and 1x2, and the error escapes `load_volume`. -/
theorem load_volume_exShape : load_volume exShapeFiles = .error () := by
  have harr : (get_ct_image_slices exShapeFiles).map (fun d =>
      d.pixelArray.map (fun row =>
        row.map (fun v => v * d.rescaleSlope + d.rescaleIntercept))) =
      [[[(0 : ℚ)]], [[0, 0]]] := by
    rw [exShape_slices]
    norm_num [baseSlice, wideSlice]
  simp only [load_volume]
  rw [harr]
  rfl

/-- C1 counterexample: two directories on which none of the claim's four
absence conditions holds (slices exist, spacing triples are identical, no
volume is None, a non-empty mask dict loads), yet `load_patient_scan`
returns None: on `exBadFiles` the StudyDate parse raises inside the
caught region, and on `exShapeFiles` the numpy stack raises out of
`load_volume` because the slices' pixel arrays have different shapes. -/
theorem load_patient_scan_counterexample :
    (load_patient_scan exBadFiles = none ∧
      get_ct_image_slices exBadFiles ≠ [] ∧
      get_uniform_spacing (get_ct_image_slices exBadFiles) ≠ none ∧
      load_volume exBadFiles = .ok (some [[[0]]]) ∧
      load_mask exBadFiles ≠ none ∧
      (∀ m, load_mask exBadFiles = some m → m ≠ [])) ∧
    (load_patient_scan exShapeFiles = none ∧
      get_ct_image_slices exShapeFiles ≠ [] ∧
      get_uniform_spacing (get_ct_image_slices exShapeFiles) ≠ none ∧
      load_volume exShapeFiles = .error () ∧
      load_volume exShapeFiles ≠ .ok none ∧
      load_mask exShapeFiles ≠ none ∧
      (∀ m, load_mask exShapeFiles = some m → m ≠ []) ∧
      (∃ d0, (get_ct_image_slices exShapeFiles).head? = some d0 ∧
        parse_study_date d0.studyDate ≠ none)) := by
  have h2 : get_ct_image_slices exBadFiles =
      [{ baseSlice with studyDate := "" }] := by decide
  have hsp : get_uniform_spacing (get_ct_image_slices exBadFiles) =
      some (1, 1, 1) := by rw [h2]; decide
  have hv := load_volume_exGood.2
  have hm : load_mask exBadFiles = some [("organ", [[[true]]])] := by decide
  have hd : parse_study_date "" = none := by decide
  have hsp2 : get_uniform_spacing [baseSlice, wideSlice] = some (1, 1, 1) := by decide
  have hm2 : load_mask exShapeFiles = some [("organ", [[[true]]])] := by decide
  refine ⟨⟨?_, ?_, ?_, hv, ?_, ?_⟩, ?_, ?_, ?_, load_volume_exShape, ?_, ?_, ?_, ?_⟩
  · simp [load_patient_scan, h2, h2 ▸ hsp, hv, hm, hd]
  · rw [h2]; simp
  · rw [hsp]; simp
  · rw [hm]; simp
  · intro m hmm
    rw [hm] at hmm
    rw [← Option.some.inj hmm]
    simp
  · simp [load_patient_scan, exShape_slices, hsp2, load_volume_exShape]
  · rw [exShape_slices]; simp
  · rw [exShape_slices, hsp2]; simp
  · rw [load_volume_exShape]; simp
  · rw [hm2]; simp
  · intro m hmm
    rw [hm2] at hmm
    rw [← Option.some.inj hmm]
    simp
  · exact ⟨baseSlice, by rw [exShape_slices]; rfl, by decide⟩

/-- The directory `exGoodFiles` loads completely, to `exScan`. -/
theorem exGood_loads : load_patient_scan exGoodFiles = some exScan := by
  have h1 : get_ct_image_slices exGoodFiles = [baseSlice] := by decide
  have hsp1 : get_uniform_spacing [baseSlice] = some (1, 1, 1) := by decide
  have hv := load_volume_exGood.1
  have hm : load_mask exGoodFiles = some [("organ", [[[true]]])] := by decide
  have hparse : parse_study_date baseSlice.studyDate = some ⟨2020, 1, 1⟩ := by decide
  simp only [load_patient_scan, h1, hsp1, hv, hm, hparse, List.isEmpty_cons]
  decide

/-- C1 witness: `exGoodFiles` loads to a scan whose metadata comes from
its first ordered image slice. -/
theorem load_patient_scan_spec_witness :
    load_patient_scan exGoodFiles = some exScan ∧
    (∃ d0, (get_ct_image_slices exGoodFiles).head? = some d0 ∧
      exScan.patient_id = d0.patientID ∧ exScan.modality = d0.modality ∧
      exScan.manufacturer = d0.manufacturer ∧
      exScan.scanner = d0.manufacturerModelName ∧
      exScan.dimension_original =
        (d0.rows, d0.columns, (get_ct_image_slices exGoodFiles).length) ∧
      get_uniform_spacing (get_ct_image_slices exGoodFiles) = some exScan.spacings ∧
      parse_study_date d0.studyDate = some exScan.study_date) :=
  ⟨exGood_loads, (load_patient_scan_spec exGoodFiles).2 exScan exGood_loads⟩

-- ===== Dataset sweep (C7) =====

/-- Embeds `load_all_patient_scans` (dicom.py lines 351-377): map
`load_patient_scan` over the subdirectories and keep the non-None results.

Modelled from the spec: the missing `generate_full_paths` helper
(`turtwig/futils/path.py`) enumerates the immediate subdirectories of the
collection directory in enumeration order, so the collection is embedded
as the list of its subdirectories (each a file listing); the lazy,
single-pass iterator is embedded extensionally as the list it yields. -/
def load_all_patient_scans (subdirs : List (List FSFile)) : List DicomDict :=
  ((subdirs.map load_patient_scan).filter (fun r => r.isSome)).filterMap id

/-- Keeping the `isSome` entries and unwrapping is plain `filterMap`. -/
theorem filter_isSome_filterMap {α : Type} (l : List (Option α)) :
    (l.filter (fun r => r.isSome)).filterMap id = l.filterMap id := by
  induction l with
  | nil => rfl
  | cons a rest ih => cases a <;> simp [ih]

/-- C7: the dataset sweep yields exactly the non-None scans of the
subdirectories, in enumeration order; one subdirectory's failure (a None,
produced by the scan-level catch boundary) never suppresses the scans of
the other subdirectories. -/
theorem load_all_patient_scans_spec (subdirs : List (List FSFile)) :
    load_all_patient_scans subdirs = subdirs.filterMap load_patient_scan
    ∧ ∀ d ∈ subdirs, ∀ s, load_patient_scan d = some s →
        s ∈ load_all_patient_scans subdirs := by
  have heq : load_all_patient_scans subdirs = subdirs.filterMap load_patient_scan := by
    unfold load_all_patient_scans
    rw [filter_isSome_filterMap, List.filterMap_map]
    rfl
  refine ⟨heq, ?_⟩
  intro d hd s hs
  rw [heq]
  exact List.mem_filterMap.mpr ⟨d, hd, hs⟩

/-- C7 witness: a failing (empty) subdirectory and a complete one: the
sweep yields exactly the complete subdirectory's scan. -/
theorem load_all_patient_scans_spec_witness :
    load_all_patient_scans [[], exGoodFiles] =
      List.filterMap load_patient_scan [[], exGoodFiles] ∧
    load_patient_scan ([] : List FSFile) = none ∧
    exScan ∈ load_all_patient_scans [[], exGoodFiles] ∧
    load_all_patient_scans [[], exGoodFiles] = [exScan] := by
  have hnil : load_patient_scan ([] : List FSFile) = none := rfl
  refine ⟨(load_all_patient_scans_spec [[], exGoodFiles]).1, hnil,
    (load_all_patient_scans_spec [[], exGoodFiles]).2 exGoodFiles (by simp)
      exScan exGood_loads, ?_⟩
  rw [(load_all_patient_scans_spec [[], exGoodFiles]).1]
  rw [List.filterMap_cons, List.filterMap_cons, List.filterMap_nil]
  rw [hnil, exGood_loads]

-- ===== DICOM purification (C8) =====

/-- Embeds `purge_dicom_dir` (dicom.py lines 414-456): among the recursively
listed ".dcm" files, the ones passed to `os.remove` — those classified as
neither CT image nor RT structure set. -/
def purge_dicom_dir (files : List FSFile) : List FSFile :=
  (files.filter (fun f => py_endswith f.path ".dcm")).filter
    (fun f => !(dicom_type_is f.ds CT_IMAGE) && !(dicom_type_is f.ds RT_STRUCTURE_SET))

/-- The files still on disk after the purge: `os.remove` deletes exactly
the files selected by `purge_dicom_dir`. -/
def remaining_after_purge (files : List FSFile) : List FSFile :=
  files.filter (fun f => !(py_endswith f.path ".dcm" &&
    !(dicom_type_is f.ds CT_IMAGE) && !(dicom_type_is f.ds RT_STRUCTURE_SET)))

/-- C8: a listed slice (".dcm") file is deleted by the purge exactly when
it is classified as neither the CT-image type nor the structure-set type,
and it remains on disk exactly when it has one of those two types. -/
theorem purge_dicom_dir_spec (files : List FSFile) (f : FSFile) (hf : f ∈ files)
    (hdcm : py_endswith f.path ".dcm" = true) :
    (f ∈ purge_dicom_dir files ↔
      ¬ (dicom_type_is f.ds CT_IMAGE = true ∨ dicom_type_is f.ds RT_STRUCTURE_SET = true))
    ∧ (f ∈ remaining_after_purge files ↔
      (dicom_type_is f.ds CT_IMAGE = true ∨ dicom_type_is f.ds RT_STRUCTURE_SET = true)) := by
  unfold purge_dicom_dir remaining_after_purge
  cases hct : dicom_type_is f.ds CT_IMAGE <;>
    cases hrt : dicom_type_is f.ds RT_STRUCTURE_SET <;>
      simp [List.mem_filter, hf, hdcm, hct, hrt]

/-- A dose-plan file: a third DICOM type, neither CT image nor structure
set. -/
def exDoseFile : FSFile :=
  ⟨"dose.dcm", { baseSlice with sopClassUID := some "1.2.840.10008.5.1.4.1.1.481.2" },
    none⟩

/-- The purge example directory: one CT-image file, one structure-set
file, one dose-plan file. -/
def purgeDir : List FSFile := [exCTFile, exRTFile, exDoseFile]

/-- C8 witness: in the three-file directory the CT-image and
structure-set files remain after the purge and the dose file is
deleted. -/
theorem purge_dicom_dir_spec_witness :
    exCTFile ∈ purgeDir ∧ py_endswith exCTFile.path ".dcm" = true ∧
    exCTFile ∈ remaining_after_purge purgeDir ∧
    exRTFile ∈ remaining_after_purge purgeDir ∧
    exDoseFile ∈ purge_dicom_dir purgeDir ∧
    ¬ exDoseFile ∈ remaining_after_purge purgeDir := by
  have hct : exCTFile ∈ purgeDir := List.mem_cons_self _ _
  have hrt : exRTFile ∈ purgeDir :=
    List.mem_cons_of_mem _ (List.mem_cons_self _ _)
  have hdose : exDoseFile ∈ purgeDir :=
    List.mem_cons_of_mem _ (List.mem_cons_of_mem _ (List.mem_cons_self _ _))
  refine ⟨hct, by decide, ?_, ?_, ?_, ?_⟩
  · exact (purge_dicom_dir_spec purgeDir exCTFile hct (by decide)).2.mpr
      (Or.inl (by decide))
  · exact (purge_dicom_dir_spec purgeDir exRTFile hrt (by decide)).2.mpr
      (Or.inr (by decide))
  · exact (purge_dicom_dir_spec purgeDir exDoseFile hdose (by decide)).1.mpr
      (by decide)
  · intro hmem
    have := (purge_dicom_dir_spec purgeDir exDoseFile hdose (by decide)).2.mp hmem
    revert this
    decide

-- ===== Dataset statistics (C6, C10) =====

/-- The Python values flowing through `compute_dataset_stats`: numbers,
strings, numeric tuples (shapes, spacing triples), lists built by the
reduction, and the sets produced by `set(...)`. -/
inductive PyVal where
  | num : ℚ → PyVal
  | str : String → PyVal
  | tup : List ℚ → PyVal
  | vals : List PyVal → PyVal
  | strset : List String → PyVal

/-- The reduction function of `compute_dataset_stats`:
`lambda x, y: [x] + [y] if not isinstance(x, list) else x + [y]`. -/
def py_merge_val (x y : PyVal) : PyVal :=
  match x with
  | .vals l => .vals (l ++ [y])
  | _ => .vals [x, y]

/-- The per-scan dict after the key filter and the volume-to-shape update:
its five fixed keys as a record of Python values. -/
structure ScanRec where
  volume : PyVal
  spacings : PyVal
  dimension_original : PyVal
  manufacturer : PyVal
  scanner : PyVal

/-- Embeds `toolz.merge_with(star(func), d1, d2)` over two same-keyed dicts:
combine the two values of each key. -/
def tz_merge_with (f : PyVal → PyVal → PyVal) (a b : ScanRec) : ScanRec :=
  ⟨f a.volume b.volume, f a.spacings b.spacings,
   f a.dimension_original b.dimension_original,
   f a.manufacturer b.manufacturer, f a.scanner b.scanner⟩

/-- Embeds `merge_with_reduce` (futils/dict.py lines 16-50): `reduce` with no
initial value over the dict list; an empty list raises (None). Its
`all_same_keys` validator passes vacuously on an empty list (the
generator body that indexes the first element never runs), so the
reduction is the failing step. -/
def merge_with_reduce (dicts : List ScanRec) (f : PyVal → PyVal → PyVal) :
    Option ScanRec :=
  match dicts with
  | [] => none
  | d :: rest => some (rest.foldl (tz_merge_with f) d)

/-- numpy shape of a 3D array, as rationals for the later mean. -/
def np_shape3 (a : Arr3 ℚ) : List ℚ :=
  [(a.length : ℚ), ((a.headD []).length : ℚ), (((a.headD []).headD []).length : ℚ)]

/-- One scan reduced to the five retained statistics keys (the keyfilter
plus the volume-to-shape update of `compute_dataset_stats`). -/
def scan_to_stats_rec (d : DicomDict) : ScanRec :=
  { volume := .tup (np_shape3 d.volume),
    spacings := .tup [d.spacings.1, d.spacings.2.1, d.spacings.2.2],
    dimension_original := .tup [(d.dimension_original.1 : ℚ),
      (d.dimension_original.2.1 : ℚ), (d.dimension_original.2.2 : ℚ)],
    manufacturer := .str d.manufacturer,
    scanner := .str d.scanner }

/-- Column means of a rectangular matrix (numpy `mean(axis=0)` on a 2D
array). -/
def col_means (rows : List (List ℚ)) : List ℚ :=
  (List.range (rows.headD []).length).map
    (fun i => (rows.map (fun r => r.getD i 0)).sum / rows.length)

/-- Embeds `np.array(v).mean(axis=0)`: on a list of tuples, the componentwise
mean; on a bare tuple (the single-scan case) axis 0 is the only axis, so
the scalar mean of its entries. -/
def np_mean_axis0 : PyVal → PyVal
  | .vals vs => .tup (col_means (vs.map (fun v =>
      match v with | .tup t => t | _ => [])))
  | .tup t => .num (t.sum / t.length)
  | v => v

/-- Python `set(v)`: on a list, its distinct elements; on a bare string
(the single-scan case) the set of its characters. -/
def py_set_val : PyVal → PyVal
  | .vals vs => .strset (dedup_first (vs.filterMap (fun v =>
      match v with | .str s => some s | _ => none)))
  | .str s => .strset (dedup_first (s.toList.map (fun c => String.mk [c])))
  | v => v

/-- The statistics record returned by `compute_dataset_stats` (the
"volume" key renamed to "dimension_actual"). -/
structure DatasetStats where
  dimension_original : PyVal
  dimension_actual : PyVal
  spacings : PyVal
  manufacturer : PyVal
  scanner : PyVal

/-- Embeds `compute_dataset_stats` (dicom.py lines 459-511): retain five keys per
scan, merge them into per-key accumulations, then take the means of the
three triples, the sets of the two strings, and rename volume to
dimension_actual. -/
def compute_dataset_stats (dataset : List DicomDict) : Option DatasetStats :=
  (merge_with_reduce (dataset.map scan_to_stats_rec) py_merge_val).map
    (fun m =>
      { dimension_original := np_mean_axis0 m.dimension_original,
        dimension_actual := np_mean_axis0 m.volume,
        spacings := np_mean_axis0 m.spacings,
        manufacturer := py_set_val m.manufacturer,
        scanner := py_set_val m.scanner })

/-- The record fold projects to a per-key value fold (dict merge acts
keywise). -/
theorem foldl_tz_merge_proj (f : PyVal → PyVal → PyVal) (proj : ScanRec → PyVal)
    (hproj : ∀ a b, proj (tz_merge_with f a b) = f (proj a) (proj b))
    (l : List ScanRec) (a : ScanRec) :
    proj (l.foldl (tz_merge_with f) a) =
      l.foldl (fun x r => f x (proj r)) (proj a) := by
  induction l generalizing a with
  | nil => rfl
  | cons b rest ih => rw [List.foldl_cons, List.foldl_cons, ih, hproj]

/-- Once the accumulator is a list, the reduction appends. -/
theorem foldl_py_merge_vals (l : List PyVal) (acc : List PyVal) :
    l.foldl py_merge_val (.vals acc) = .vals (acc ++ l) := by
  induction l generalizing acc with
  | nil => simp
  | cons b rest ih =>
    rw [List.foldl_cons]
    show rest.foldl py_merge_val (.vals (acc ++ [b])) = _
    rw [ih]
    simp

/-- Reducing from a non-list start collects all values in order. -/
theorem foldl_py_merge_atom (v1 : PyVal) (h : ∀ l, v1 ≠ .vals l)
    (v2 : PyVal) (vs : List PyVal) :
    (v2 :: vs).foldl py_merge_val v1 = .vals (v1 :: v2 :: vs) := by
  rw [List.foldl_cons]
  have h1 : py_merge_val v1 v2 = .vals [v1, v2] := by
    cases v1 <;> first | rfl | exact absurd rfl (h _)
  rw [h1, foldl_py_merge_vals]
  rfl

/-- The merged value of one key, for a dataset of at least two scans: the
list of that key's per-scan values, in order. -/
theorem merged_field (proj : ScanRec → PyVal)
    (hproj : ∀ a b, proj (tz_merge_with py_merge_val a b) =
      py_merge_val (proj a) (proj b))
    (hatom : ∀ (d : DicomDict) (l : List PyVal), proj (scan_to_stats_rec d) ≠ .vals l)
    (d1 d2 : DicomDict) (rest : List DicomDict) :
    proj (((d2 :: rest).map scan_to_stats_rec).foldl (tz_merge_with py_merge_val)
        (scan_to_stats_rec d1)) =
      .vals ((d1 :: d2 :: rest).map (fun d => proj (scan_to_stats_rec d))) := by
  rw [foldl_tz_merge_proj _ _ hproj]
  have hfm : ((d2 :: rest).map scan_to_stats_rec).foldl
      (fun x r => py_merge_val x (proj r)) (proj (scan_to_stats_rec d1)) =
      ((d2 :: rest).map (fun d => proj (scan_to_stats_rec d))).foldl py_merge_val
        (proj (scan_to_stats_rec d1)) := by
    rw [List.foldl_map, List.foldl_map]
  rw [hfm, List.map_cons, foldl_py_merge_atom _ (hatom d1)]
  rfl

/-- The string extraction of `set()` over the merged list of strings. -/
theorem filterMap_str_map {α : Type} (g : α → String) (l : List α) :
    (l.map (fun x => PyVal.str (g x))).filterMap (fun v =>
      match v with | .str s => some s | _ => none) = l.map g := by
  induction l with
  | nil => rfl
  | cons a rest ih => simp only [List.map_cons, List.filterMap_cons, ih]

/-- Column means of a matrix whose rows are built as triples. -/
theorem col_means_triple {α : Type} (l : List α) (f1 f2 f3 : α → ℚ)
    (hne : l ≠ []) :
    col_means (l.map (fun x => [f1 x, f2 x, f3 x])) =
      [(l.map f1).sum / l.length, (l.map f2).sum / l.length,
       (l.map f3).sum / l.length] := by
  unfold col_means
  have hhead : ((l.map (fun x => [f1 x, f2 x, f3 x])).headD []).length = 3 := by
    cases l with
    | nil => exact absurd rfl hne
    | cons a rest => rfl
  rw [hhead]
  have hr : List.range 3 = [0, 1, 2] := rfl
  rw [hr]
  simp only [List.map_cons, List.map_nil, List.map_map, List.length_map]
  refine congrArg₂ _ ?_ (congrArg₂ _ ?_ (congrArg₂ _ ?_ rfl)) <;>
    · refine congrArg₂ _ (congrArg _ ?_) rfl
      exact List.map_congr_left (fun x _ => rfl)

/-- C6 (amended): for a dataset of at least two scans,
`compute_dataset_stats` returns the componentwise means of the original
dimensions, loaded shapes and spacings, and the sets of distinct
manufacturer and scanner strings. -/
theorem compute_dataset_stats_spec (dataset : List DicomDict)
    (h : 2 ≤ dataset.length) :
    ∃ stats, compute_dataset_stats dataset = some stats ∧
      stats.dimension_original = .tup
        [(dataset.map (fun d => ((d.dimension_original.1 : ℚ)))).sum / dataset.length,
         (dataset.map (fun d => ((d.dimension_original.2.1 : ℚ)))).sum / dataset.length,
         (dataset.map (fun d => ((d.dimension_original.2.2 : ℚ)))).sum / dataset.length] ∧
      stats.dimension_actual = .tup
        [(dataset.map (fun d => ((d.volume.length : ℚ)))).sum / dataset.length,
         (dataset.map (fun d => (((d.volume.headD []).length : ℚ)))).sum / dataset.length,
         (dataset.map (fun d =>
           ((((d.volume.headD []).headD []).length : ℚ)))).sum / dataset.length] ∧
      stats.spacings = .tup
        [(dataset.map (fun d => d.spacings.1)).sum / dataset.length,
         (dataset.map (fun d => d.spacings.2.1)).sum / dataset.length,
         (dataset.map (fun d => d.spacings.2.2)).sum / dataset.length] ∧
      stats.manufacturer = .strset (dedup_first (dataset.map DicomDict.manufacturer)) ∧
      stats.scanner = .strset (dedup_first (dataset.map DicomDict.scanner)) ∧
      (∀ s, s ∈ dedup_first (dataset.map DicomDict.manufacturer) ↔
        ∃ d ∈ dataset, d.manufacturer = s) ∧
      (∀ s, s ∈ dedup_first (dataset.map DicomDict.scanner) ↔
        ∃ d ∈ dataset, d.scanner = s) := by
  match dataset, h with
  | d1 :: d2 :: rest, _ =>
    have hne : (d1 :: d2 :: rest : List DicomDict) ≠ [] := by simp
    refine ⟨_, rfl, ?_, ?_, ?_, ?_, ?_, ?_, ?_⟩
    · show np_mean_axis0 (ScanRec.dimension_original
        (((d2 :: rest).map scan_to_stats_rec).foldl (tz_merge_with py_merge_val)
          (scan_to_stats_rec d1))) = _
      rw [merged_field ScanRec.dimension_original (fun a b => rfl)
        (fun d l => by simp [scan_to_stats_rec]) d1 d2 rest]
      show PyVal.tup (col_means (((d1 :: d2 :: rest).map (fun d =>
        PyVal.tup [(d.dimension_original.1 : ℚ), (d.dimension_original.2.1 : ℚ),
          (d.dimension_original.2.2 : ℚ)])).map (fun v =>
            match v with | .tup t => t | _ => []))) = _
      rw [List.map_map]
      show PyVal.tup (col_means ((d1 :: d2 :: rest).map (fun d =>
        [(d.dimension_original.1 : ℚ), (d.dimension_original.2.1 : ℚ),
          (d.dimension_original.2.2 : ℚ)]))) = _
      rw [col_means_triple _ _ _ _ hne]
    · show np_mean_axis0 (ScanRec.volume
        (((d2 :: rest).map scan_to_stats_rec).foldl (tz_merge_with py_merge_val)
          (scan_to_stats_rec d1))) = _
      rw [merged_field ScanRec.volume (fun a b => rfl)
        (fun d l => by simp [scan_to_stats_rec, np_shape3]) d1 d2 rest]
      show PyVal.tup (col_means (((d1 :: d2 :: rest).map (fun d =>
        PyVal.tup (np_shape3 d.volume))).map (fun v =>
          match v with | .tup t => t | _ => []))) = _
      rw [List.map_map]
      show PyVal.tup (col_means ((d1 :: d2 :: rest).map (fun d =>
        [(d.volume.length : ℚ), ((d.volume.headD []).length : ℚ),
          (((d.volume.headD []).headD []).length : ℚ)]))) = _
      rw [col_means_triple _ _ _ _ hne]
    · show np_mean_axis0 (ScanRec.spacings
        (((d2 :: rest).map scan_to_stats_rec).foldl (tz_merge_with py_merge_val)
          (scan_to_stats_rec d1))) = _
      rw [merged_field ScanRec.spacings (fun a b => rfl)
        (fun d l => by simp [scan_to_stats_rec]) d1 d2 rest]
      show PyVal.tup (col_means (((d1 :: d2 :: rest).map (fun d =>
        PyVal.tup [d.spacings.1, d.spacings.2.1, d.spacings.2.2])).map (fun v =>
          match v with | .tup t => t | _ => []))) = _
      rw [List.map_map]
      show PyVal.tup (col_means ((d1 :: d2 :: rest).map (fun d =>
        [d.spacings.1, d.spacings.2.1, d.spacings.2.2]))) = _
      rw [col_means_triple _ _ _ _ hne]
    · show py_set_val (ScanRec.manufacturer
        (((d2 :: rest).map scan_to_stats_rec).foldl (tz_merge_with py_merge_val)
          (scan_to_stats_rec d1))) = _
      rw [merged_field ScanRec.manufacturer (fun a b => rfl)
        (fun d l => by simp [scan_to_stats_rec]) d1 d2 rest]
      show PyVal.strset (dedup_first (((d1 :: d2 :: rest).map (fun d =>
        PyVal.str d.manufacturer)).filterMap (fun v =>
          match v with | .str s => some s | _ => none))) = _
      rw [filterMap_str_map]
    · show py_set_val (ScanRec.scanner
        (((d2 :: rest).map scan_to_stats_rec).foldl (tz_merge_with py_merge_val)
          (scan_to_stats_rec d1))) = _
      rw [merged_field ScanRec.scanner (fun a b => rfl)
        (fun d l => by simp [scan_to_stats_rec]) d1 d2 rest]
      show PyVal.strset (dedup_first (((d1 :: d2 :: rest).map (fun d =>
        PyVal.str d.scanner)).filterMap (fun v =>
          match v with | .str s => some s | _ => none))) = _
      rw [filterMap_str_map]
    · intro s
      rw [mem_dedup_first]
      exact List.mem_map
    · intro s
      rw [mem_dedup_first]
      exact List.mem_map

/-- C10: on the empty dataset `compute_dataset_stats` produces no
statistics record: the dict reduction has no initial value and raises. -/
theorem compute_dataset_stats_empty :
    compute_dataset_stats ([] : List DicomDict) = none := rfl

/-- A complete scan record with manufacturer "GE" and original dimensions
(10, 15, 20). -/
def exStatScan : DicomDict :=
  { patient_id := "p1", volume := [[[0]]], masks := [("organ", [[[true]]])],
    dimension_original := (10, 15, 20), spacings := (1, 1, 1), modality := "CT",
    manufacturer := "GE", scanner := "S1", study_date := ⟨2020, 1, 1⟩ }

/-- C6 counterexample: on a one-scan collection the code returns the set
of the manufacturer string's characters instead of the singleton set of
manufacturer strings, and a scalar mean instead of the componentwise
3-vector mean. -/
theorem compute_dataset_stats_counterexample :
    (compute_dataset_stats [exStatScan]).map DatasetStats.manufacturer =
      some (.strset ["G", "E"]) ∧
    PyVal.strset ["G", "E"] ≠ PyVal.strset ["GE"] ∧
    (compute_dataset_stats [exStatScan]).map DatasetStats.dimension_original =
      some (.num 15) ∧
    PyVal.num 15 ≠ PyVal.tup [10, 15, 20] := by
  refine ⟨rfl, by simp, ?_, by simp⟩
  show some (PyVal.num ((([(10 : ℚ), 15, 20]).sum) / ((3 : ℕ) : ℚ))) = _
  norm_num

/-- Second stats scan: dimensions (20, 30, 40), manufacturer "GE". -/
def statScanB : DicomDict :=
  { exStatScan with dimension_original := (20, 30, 40), scanner := "S2" }

/-- Third stats scan: dimensions (5, 10, 15), manufacturer "Siemens". -/
def statScanC : DicomDict :=
  { exStatScan with dimension_original := (5, 10, 15), manufacturer := "Siemens" }

/-- C6 witness: the spec's example — dimensions (10,15,20), (20,30,40),
(5,10,15) average to (35/3, 55/3, 25), and manufacturers GE, GE, Siemens
yield the two-element set. -/
theorem compute_dataset_stats_spec_witness :
    2 ≤ ([exStatScan, statScanB, statScanC] : List DicomDict).length ∧
    ∃ stats, compute_dataset_stats [exStatScan, statScanB, statScanC] = some stats ∧
      stats.dimension_original = .tup [35/3, 55/3, 25] ∧
      stats.manufacturer = .strset ["GE", "Siemens"] ∧
      (∀ s, s ∈ (["GE", "Siemens"] : List String) ↔
        ∃ d ∈ [exStatScan, statScanB, statScanC], d.manufacturer = s) := by
  obtain ⟨stats, heq, hdim, hact, hsp, hman, hscan, hmem1, hmem2⟩ :=
    compute_dataset_stats_spec [exStatScan, statScanB, statScanC] (by simp)
  have hdd : dedup_first ([exStatScan, statScanB, statScanC].map
      DicomDict.manufacturer) = ["GE", "Siemens"] := by decide
  refine ⟨by simp, stats, heq, ?_, ?_, ?_⟩
  · rw [hdim]
    norm_num [exStatScan, statScanB, statScanC, List.sum_cons, List.sum_nil]
  · rw [hman, hdd]
  · intro s
    have hs := hmem1 s
    rw [hdd] at hs
    exact hs

end Turtwig
